import Mathlib

/-!
Shallow embedding of the Pure64 physical-memory allocator, `src/map.c`.

Machine integers are modelled as `Nat` with an explicit `% 2^64` wherever the
C code performs 64-bit unsigned arithmetic that can overflow.  C pointers are
physical addresses (`Nat`), with `0` playing the role of `NULL`, exactly as in
the source (`#define NULL ((void *) 0x00)`).  The allocation table, which in
the machine lives at `map->alloc_table` inside the managed memory, is shadowed
by an explicit list of records whose length is `alloc_count`; raw byte memory
is a separate function `Nat → Nat`, touched only by `pure64_memcpy`.
-/

/-- One allocation record, `struct pure64_alloc`: base address, user-requested
size, and the number of bytes actually reserved. -/
structure pure64_alloc where
  addr : Nat
  size : Nat
  reserved : Nat
deriving DecidableEq

/-- Modelled from the spec: `e820.h` is not under `src/`.  The firmware map
cursor walks a fixed sequence of entries, each with a base address, a length
and a usability classification; `pure64_e820_end` is reaching the end of the
sequence, `pure64_e820_usable` reads the classification, `pure64_e820_next`
advances.  The sequence is embedded as a `List`, the cursor as the list tail
being walked. -/
structure pure64_e820 where
  addr : Nat
  size : Nat
  usable : Bool
deriving DecidableEq

/-- 2^64: every 64-bit unsigned arithmetic step in `map.c` reduces modulo
this. -/
def U64 : Nat := 2 ^ 64

/-- `#define BOUNDARY 0x1000` from `map.c`: the page granularity. -/
def BOUNDARY : Nat := 0x1000

/-- Modelled from the spec: `map.h` is not under `src/`.  Per the data model an
allocation record holds the three 64-bit quantities `addr`, `size`,
`reserved` (the first pointer-width), so `sizeof(struct pure64_alloc) = 24`. -/
def sizeof_pure64_alloc : Nat := 24

/-- The allocator state, `struct pure64_map`: the firmware map, the address of
the allocation table (`alloc_table` as a pointer; 0 is NULL), the table's
records (list length = `alloc_count`), and raw byte memory. -/
structure pure64_map where
  e820 : List pure64_e820
  alloc_table_addr : Nat
  alloc_table : List pure64_alloc
  mem : Nat → Nat

/-- Modelled from the spec: the memory utility (`string.h`) is an external
collaborator; `pure64_memcpy dst src n` copies `n` bytes from `src` to `dst`.
Functionally: byte `j` of the result reads `src + (j - dst)` of the old memory
when `dst ≤ j < dst + n`, and is unchanged otherwise. -/
def pure64_memcpy (mem : Nat → Nat) (dst src n : Nat) : Nat → Nat :=
  fun j => if dst ≤ j ∧ j < dst + n then mem (src + (j - dst)) else mem j

/-- One bubble pass of `sort_alloc_table`, lines 69-80 of `map.c`, carrying the
element currently at position `i`: adjacent records are swapped when the left
`addr` exceeds the right `addr`; the returned flag records whether any swap
occurred (the C `sorted_flag`). -/
def bubblePass (a : pure64_alloc) : List pure64_alloc → List pure64_alloc × Bool
  | [] => ([a], false)
  | b :: rest =>
    if a.addr > b.addr then
      let p := bubblePass a rest
      (b :: p.1, true)
    else
      let p := bubblePass b rest
      (a :: p.1, p.2)

/-- One full pass over the table (the C `for` loop of `sort_alloc_table`). -/
def bubblePassTop : List pure64_alloc → List pure64_alloc × Bool
  | [] => ([], false)
  | a :: rest => bubblePass a rest

/-- The `bubbleSortLoop` of `sort_alloc_table`: repeat full passes while a swap
happened.  The C loop terminates after at most `length` passes (each pass
settles the running maximum), so the fuel `length + 1` never runs out and the
fuelled loop computes exactly what the unbounded C loop computes. -/
def bubbleLoop : Nat → List pure64_alloc → List pure64_alloc
  | 0, l => l
  | fuel + 1, l =>
    let p := bubblePassTop l
    if p.2 then bubbleLoop fuel p.1 else p.1

/-- `sort_alloc_table`, lines 55-84 of `map.c`. -/
def sort_alloc_table (l : List pure64_alloc) : List pure64_alloc :=
  bubbleLoop (l.length + 1) l

/-- The inner loop of `find_suitable_addr`, lines 137-156 of `map.c`: walk the
allocation table with candidate `addr`; on overlap (`addr + size > addr3 &&
addr <= addr3`, 64-bit arithmetic) advance the candidate to `addr3 + size3`;
if the advanced candidate no longer fits (`addr + size >= addr2 + size2`) the
loop breaks early, reported here as `none` (the C detects this post-loop via
`i < map->alloc_count`).  `none` means the e820 entry is abandoned, `some a`
means the full table was traversed and `a` is returned to the caller. -/
def scanAllocs (size a2 s2 : Nat) : List pure64_alloc → Nat → Option Nat
  | [], addr => some addr
  | al :: rest, addr =>
    if (addr + size) % U64 > al.addr ∧ addr ≤ al.addr then
      let moved := (al.addr + al.reserved) % U64
      if (moved + size) % U64 ≥ (a2 + s2) % U64 then none
      else scanAllocs size a2 s2 rest moved
    else scanAllocs size a2 s2 rest addr

/-- The e820 walk of `find_suitable_addr`, lines 111-180 of `map.c`: skip
unusable entries and entries smaller than `size`; otherwise scan the
allocation table from candidate `entry.addr`; abandoned entries fall through
to the next; running off the end returns NULL (0). -/
def find_suitable_go (allocs : List pure64_alloc) (size : Nat) :
    List pure64_e820 → Nat
  | [] => 0
  | e :: rest =>
    if !e.usable then find_suitable_go allocs size rest
    else if e.size < size then find_suitable_go allocs size rest
    else
      match scanAllocs size e.addr e.size allocs e.addr with
      | none => find_suitable_go allocs size rest
      | some a => a

/-- `find_suitable_addr`, lines 86-188 of `map.c`. -/
def find_suitable_addr (m : pure64_map) (size : Nat) : Nat :=
  find_suitable_go m.alloc_table size m.e820

/-- The index scan of `find_alloc_entry`, lines 194-197 of `map.c`. -/
def find_alloc_go (addr : Nat) : List pure64_alloc → Nat → Option Nat
  | [], _ => none
  | a :: rest, i => if a.addr = addr then some i else find_alloc_go addr rest (i + 1)

/-- `find_alloc_entry`, lines 190-200 of `map.c`: index of the first record
whose `addr` equals the target, or `none` (the C returns a pointer into the
table; the index identifies the same record). -/
def find_alloc_entry (l : List pure64_alloc) (addr : Nat) : Option Nat :=
  find_alloc_go addr l 0

/-- The page rounding performed identically in `pure64_map_malloc` (lines
298-299) and `pure64_map_realloc` (lines 362-364):
`if (size % BOUNDARY) size += BOUNDARY - size % BOUNDARY`, in 64-bit unsigned
arithmetic. -/
def round_boundary (size : Nat) : Nat :=
  if size % BOUNDARY ≠ 0 then (size + (BOUNDARY - size % BOUNDARY)) % U64
  else size

/-- The non-NULL branch of `pure64_map_realloc`, lines 340-388 of `map.c`:
look the address up; if enough is reserved, update `size` in place and return
the same address; otherwise round the new `reserved`, find a placement for the
(un-rounded) `size`, update the record, copy `alloc->size` (already set to the
new size) bytes from the old to the new address, resort, and return the new
address.  Failures return NULL paired with the unchanged map. -/
def pure64_map_realloc_core (m : pure64_map) (addr size : Nat) :
    Option Nat × pure64_map :=
  match find_alloc_entry m.alloc_table addr with
  | none => (none, m)
  | some i =>
    let al := m.alloc_table.getD i ⟨0, 0, 0⟩
    if al.reserved ≥ size then
      (some addr, { m with alloc_table := m.alloc_table.set i { al with size := size } })
    else
      let reserved := round_boundary size
      let addr2 := find_suitable_addr m size
      if addr2 = 0 then (none, m)
      else
        let al2 : pure64_alloc := ⟨addr2, size, reserved⟩
        let mem2 := pure64_memcpy m.mem addr2 addr al2.size
        (some addr2,
          { m with alloc_table := sort_alloc_table (m.alloc_table.set i al2),
                   mem := mem2 })

/-- `append_alloc`, lines 32-53 of `map.c`: grow the table to
`(alloc_count + 1) * sizeof(struct pure64_alloc)` bytes through
`pure64_map_realloc` (always the non-NULL branch, since `pure64_map_malloc`
has already checked `alloc_table != NULL`), then store the new record at the
new tail and bump `alloc_count`.  `false` is the C return value `-1`. -/
def append_alloc (m : pure64_map) (al : pure64_alloc) : Bool × pure64_map :=
  let ts := ((m.alloc_table.length + 1) * sizeof_pure64_alloc) % U64
  match pure64_map_realloc_core m m.alloc_table_addr ts with
  | (none, m2) => (false, m2)
  | (some p, m2) =>
    (true, { m2 with alloc_table_addr := p, alloc_table := m2.alloc_table ++ [al] })

/-- `pure64_map_malloc`, lines 289-311 of `map.c`: fail on a NULL table;
record the user size, round the placement size up to the page boundary, find a
placement, append the record `{addr, size, reserved}`. -/
def pure64_map_malloc (m : pure64_map) (size : Nat) : Option Nat × pure64_map :=
  if m.alloc_table_addr = 0 then (none, m)
  else
    let rsize := round_boundary size
    let a := find_suitable_addr m rsize
    if a = 0 then (none, m)
    else
      match append_alloc m ⟨a, size, rsize⟩ with
      | (false, m2) => (none, m2)
      | (true, m2) => (some a, m2)

/-- `pure64_map_realloc`, lines 313-388 of `map.c`: a NULL address means a
fresh allocation; otherwise the core path above. -/
def pure64_map_realloc (m : pure64_map) (addr size : Nat) :
    Option Nat × pure64_map :=
  if addr = 0 then pure64_map_malloc m size
  else pure64_map_realloc_core m addr size

/-- `pure64_map_free`, lines 390-418 of `map.c`: NULL or an unknown address is
a no-op; otherwise set the record's `addr` to the sentinel
`0xffffffffffffffff`, resort (pushing it to the tail), and decrement
`alloc_count` (here: drop the last record of the sorted table). -/
def pure64_map_free (m : pure64_map) (addr : Nat) : pure64_map :=
  if addr = 0 then m
  else
    match find_alloc_entry m.alloc_table addr with
    | none => m
    | some i =>
      let al := m.alloc_table.getD i ⟨0, 0, 0⟩
      let sorted := sort_alloc_table (m.alloc_table.set i { al with addr := U64 - 1 })
      { m with alloc_table := sorted.dropLast }

/-- The scan of `pure64_map_init`, lines 221-253 of `map.c`: the first usable
entry with `addr + size >= 0x60000` (64-bit sum) that, after the clip
`size = 0x60000 - addr; addr = 0x60000` applied when `addr < 0x60000`, still
has `size >= 2 * sizeof(struct pure64_alloc)`; the accepted (possibly clipped)
address is returned. -/
def init_scan : List pure64_e820 → Option Nat
  | [] => none
  | e :: rest =>
    if !e.usable then init_scan rest
    else if (e.addr + e.size) % U64 < 0x60000 then init_scan rest
    else
      let addr := if e.addr < 0x60000 then 0x60000 else e.addr
      let size := if e.addr < 0x60000 then 0x60000 - e.addr else e.size
      if size < sizeof_pure64_alloc * 2 then init_scan rest
      else some addr

/-- `pure64_map_init`, lines 202-287 of `map.c`, up to the allocation-table
setup: on failure the table is NULL and empty; on success it holds the
bootstrap record `{0, 0x60000, 0x60000}` and the self-reference
`{addr, 2*sizeof, 2*sizeof}`.  The function's tail then allocates the AHCI
driver object through `pure64_map_malloc` and hands it the vtable; `ahci.h`
is external to `src/`, so that trailing allocation is an ordinary
`pure64_map_malloc` call a client may apply on top of this state and is not
folded in here. -/
def pure64_map_init (e : List pure64_e820) (mem0 : Nat → Nat) : pure64_map :=
  match init_scan e with
  | none => ⟨e, 0, [], mem0⟩
  | some a =>
    ⟨e, a,
      [⟨0, 0x60000, 0x60000⟩,
       ⟨a, sizeof_pure64_alloc * 2, sizeof_pure64_alloc * 2⟩],
      mem0⟩

/-- Interval disjointness of two records, `[addr, addr+reserved)` against
`[addr, addr+reserved)`, as a Boolean. -/
def disjointB (a b : pure64_alloc) : Bool :=
  decide (a.addr + a.reserved ≤ b.addr) || decide (b.addr + b.reserved ≤ a.addr)

/-- The spec's non-overlap invariant over a table, as a Boolean: every pair of
distinct records is disjoint. -/
def noOverlapB : List pure64_alloc → Bool
  | [] => true
  | a :: rest => rest.all (fun b => disjointB a b) && noOverlapB rest

/-- The spec's sorted invariant over a table, as a Boolean: strictly ascending
`addr`. -/
def strictSortedB : List pure64_alloc → Bool
  | [] => true
  | [_] => true
  | a :: b :: rest => decide (a.addr < b.addr) && strictSortedB (b :: rest)

/-- A concrete byte memory for the scenario states: byte `j` holds `j`. -/
def mem0 : Nat → Nat := fun j => j

/-- The spec's concrete scenario firmware map: one usable region
`[0x60000, 0x1000000)`. -/
def scenarioE820 : List pure64_e820 := [⟨0x60000, 0xFA0000, true⟩]

/-- The allocator state right after `pure64_map_init` on the scenario map. -/
def m0 : pure64_map := pure64_map_init scenarioE820 mem0

/-- The state after the first `pure64_map_malloc(0x1000)` on `m0` (in the real
program the driver allocation at the end of `pure64_map_init` plays exactly
this role of first allocation). -/
def m1 : pure64_map := (pure64_map_malloc m0 0x1000).2

/-! ## Helper lemmas -/

theorem getLast?_append_singleton (l : List pure64_alloc) (a : pure64_alloc) :
    (l ++ [a]).getLast? = some a := by
  simp [List.getLast?_concat]

theorem getD_of_get? {l : List pure64_alloc} {k : Nat} {al d : pure64_alloc}
    (h : l.get? k = some al) : l.getD k d = al := by
  rw [List.getD_eq_getD_get?, h]
  rfl

theorem pure64_memcpy_inside (mem : Nat → Nat) (dst src n i : Nat) (h : i < n) :
    pure64_memcpy mem dst src n (dst + i) = mem (src + i) := by
  unfold pure64_memcpy
  rw [if_pos ⟨Nat.le_add_right dst i, Nat.add_lt_add_left h dst⟩]
  congr 1
  omega

theorem pure64_memcpy_outside (mem : Nat → Nat) (dst src n j : Nat)
    (h : j < dst ∨ dst + n ≤ j) :
    pure64_memcpy mem dst src n j = mem j := by
  unfold pure64_memcpy
  rw [if_neg]
  rintro ⟨h1, h2⟩
  rcases h with h | h <;> omega

theorem round_boundary_mod (s : Nat) : round_boundary s % 4096 = 0 := by
  unfold round_boundary BOUNDARY
  split
  · next h =>
    have hdvd : (4096 : Nat) ∣ U64 := ⟨2 ^ 52, by norm_num [U64]⟩
    rw [Nat.mod_mod_of_dvd _ hdvd]
    omega
  · next h =>
    omega

theorem realloc_core_cases (m : pure64_map) (a s : Nat) :
    (pure64_map_realloc_core m a s).2 = m ∨ (pure64_map_realloc_core m a s).1 ≠ none := by
  simp only [pure64_map_realloc_core]
  split
  · exact Or.inl rfl
  · split
    · exact Or.inr (by simp)
    · split
      · exact Or.inl rfl
      · exact Or.inr (by simp)

theorem realloc_core_none (m : pure64_map) (a s : Nat)
    (h : (pure64_map_realloc_core m a s).1 = none) :
    (pure64_map_realloc_core m a s).2 = m :=
  (realloc_core_cases m a s).resolve_right fun hn => hn h

theorem append_fail_eq (m : pure64_map) (al : pure64_alloc) (m2 : pure64_map)
    (h : append_alloc m al = (false, m2)) : m2 = m := by
  simp only [append_alloc] at h
  split at h
  · next m3 heq =>
    injection h with h1 h2
    have h3 := realloc_core_none m m.alloc_table_addr
      (((m.alloc_table.length + 1) * sizeof_pure64_alloc) % U64) (by rw [heq])
    rw [heq] at h3
    rw [← h2]
    exact h3
  · next p m3 heq =>
    injection h with h1 h2
    exact absurd h1 (by decide)

theorem append_true_table (m : pure64_map) (al : pure64_alloc) (m2 : pure64_map)
    (h : append_alloc m al = (true, m2)) :
    ∃ l, m2.alloc_table = l ++ [al] := by
  simp only [append_alloc] at h
  split at h
  · next m3 heq =>
    injection h with h1 h2
    exact absurd h1 (by decide)
  · next p m3 heq =>
    injection h with h1 h2
    exact ⟨m3.alloc_table, by rw [← h2]⟩

theorem malloc_cases (m : pure64_map) (s : Nat) :
    (pure64_map_malloc m s).2 = m ∨ (pure64_map_malloc m s).1 ≠ none := by
  simp only [pure64_map_malloc]
  split
  · exact Or.inl rfl
  · split
    · exact Or.inl rfl
    · split
      · next m2 heq => exact Or.inl (append_fail_eq m _ m2 heq)
      · next m2 heq => exact Or.inr (by simp)

theorem malloc_none_eq (m : pure64_map) (s : Nat)
    (h : (pure64_map_malloc m s).1 = none) : (pure64_map_malloc m s).2 = m :=
  (malloc_cases m s).resolve_right fun hn => hn h

theorem realloc_none_eq (m : pure64_map) (p s : Nat)
    (h : (pure64_map_realloc m p s).1 = none) : (pure64_map_realloc m p s).2 = m := by
  unfold pure64_map_realloc at h ⊢
  by_cases hp : p = 0
  · rw [if_pos hp] at h ⊢
    exact malloc_none_eq m s h
  · rw [if_neg hp] at h ⊢
    exact realloc_core_none m p s h

theorem free_noop (m : pure64_map) (p : Nat)
    (h : p = 0 ∨ find_alloc_entry m.alloc_table p = none) :
    pure64_map_free m p = m := by
  unfold pure64_map_free
  by_cases hp : p = 0
  · rw [if_pos hp]
  · rw [if_neg hp]
    rcases h with h | h
    · exact absurd h hp
    · rw [h]

theorem malloc_success_last (m : pure64_map) (s a : Nat) (m2 : pure64_map)
    (h : pure64_map_malloc m s = (some a, m2)) :
    m2.alloc_table.getLast? = some ⟨a, s, round_boundary s⟩ := by
  simp only [pure64_map_malloc] at h
  split at h
  · injection h with h1 h2
    exact absurd h1 (by simp)
  · split at h
    · injection h with h1 h2
      exact absurd h1 (by simp)
    · split at h
      · next m3 heq =>
        injection h with h1 h2
        exact absurd h1 (by simp)
      · next m3 heq =>
        injection h with h1 h2
        injection h1 with h1
        obtain ⟨l, hl⟩ := append_true_table m _ m3 heq
        rw [← h2, hl, ← h1, getLast?_append_singleton]

/-! ## Claim theorems -/

/-- C1: refuted (code bug).  The spec's non-overlap invariant — all pairs of
live records have disjoint `[addr, addr+reserved)` intervals after every
public operation — fails on the code.  On the spec's own scenario map (one
usable region `[0x60000, 0x1000000)`), the very first
`pure64_map_malloc(0x1000)` after initialization already produces two records
at the same base address `0x60030`: the placement for the user block is
computed before `append_alloc` grows the table, the table growth reallocation
then finds the same hole `0x60030` for the relocated table, and the user
record is appended on top of it, so records 1 and 2 both cover
`[0x60030, 0x61030)`.  (In the real program the driver allocation at the end
of `pure64_map_init` is this first malloc and triggers the same collision.) -/
theorem c1_overlap_after_first_malloc :
    m1.alloc_table =
      [⟨0, 0x60000, 0x60000⟩, ⟨0x60030, 72, 0x1000⟩, ⟨0x60030, 0x1000, 0x1000⟩] ∧
    noOverlapB m1.alloc_table = false := by
  constructor
  · decide
  · decide

/-- C3: refuted (code bug).  `pure64_map_malloc` never calls
`sort_alloc_table` after `append_alloc`, and the strict-ascending invariant is
already broken by the first malloc after initialization on the spec's scenario
map: records 1 and 2 share the base address `0x60030`, so
`addr_1 < addr_2` fails, and the next `find_suitable_addr` would run on this
table. -/
theorem c3_unsorted_after_first_malloc :
    strictSortedB m1.alloc_table = false ∧
    (m1.alloc_table.get? 1).map pure64_alloc.addr = some 0x60030 ∧
    (m1.alloc_table.get? 2).map pure64_alloc.addr = some 0x60030 := by
  refine ⟨by decide, by decide, by decide⟩

/-- C4: refuted (code bug).  The clipping step of `pure64_map_init` computes
`size = 0x60000 - addr` — the length of the portion of the entry *below* the
threshold — instead of the remaining length above it.  On the firmware map
with the single usable entry `[0x50000, 0x60000)` the code therefore accepts
the entry (`0x60000 - 0x50000 = 0x10000 ≥ 48`) and places the table at
`0x60000`, although the entry does not end above `0x60000` and the remaining
length above the threshold, `(base + len) - max base 0x60000 = 0`, has room
for no record at all. -/
theorem c4_init_places_table_without_room :
    (pure64_map_init [⟨0x50000, 0x10000, true⟩] mem0).alloc_table_addr = 0x60000 ∧
    (pure64_map_init [⟨0x50000, 0x10000, true⟩] mem0).alloc_table =
      [⟨0, 0x60000, 0x60000⟩, ⟨0x60000, 48, 48⟩] ∧
    0x50000 + 0x10000 - max 0x50000 0x60000 = 0 ∧
    ¬ sizeof_pure64_alloc * 2 ≤ 0x50000 + 0x10000 - max 0x50000 0x60000 := by
  refine ⟨by decide, by decide, by decide, by decide⟩

/-- C2: counterexample.  Alignment of `reserved` fails after a public
operation.  On a firmware map whose only usable entry is `[0x60000, 0x60030)`,
`pure64_map_init` succeeds and leaves the self-reference record with
`reserved = 2 * sizeof(struct pure64_alloc) = 48`, which is not a multiple of
4096 (the entry is too small for any further allocation, so the trailing
driver malloc of the real `init` cannot change it).  Moreover `addr`
alignment also fails on reachable states: after the first malloc on the
scenario map the relocated table record sits at `0x60030`, which is not a
multiple of 4096. -/
theorem c2_counterexample :
    ((pure64_map_init [⟨0x60000, 48, true⟩] mem0).alloc_table.get? 1 =
        some ⟨0x60000, 48, 48⟩ ∧
      ¬ (48 % 4096 = 0)) ∧
    (m1.alloc_table.get? 1 = some ⟨0x60030, 72, 0x1000⟩ ∧
      ¬ (0x60030 % 4096 = 0)) := by
  refine ⟨⟨by decide, by decide⟩, by decide, by decide⟩

/-- C2 (amended): the page-rounding in `pure64_map_malloc` does make the
`reserved` of every record it appends a multiple of 4096 — whenever a malloc
succeeds, the appended (last) record has `reserved % 4096 = 0`; but the claim
as stated fails for the init self-reference record (`reserved = 48`) and for
record addresses (`find_suitable_addr` can return unaligned record-end
addresses such as `0x60030`). -/
theorem c2_malloc_reserved_aligned (m : pure64_map) (s a : Nat) (m2 : pure64_map)
    (h : pure64_map_malloc m s = (some a, m2)) :
    ∃ rec, m2.alloc_table.getLast? = some rec ∧ rec.reserved % 4096 = 0 :=
  ⟨⟨a, s, round_boundary s⟩, malloc_success_last m s a m2 h, round_boundary_mod s⟩

/-- C2 witness: the amended statement at the concrete scenario malloc. -/
theorem c2_witness :
    ∃ rec, m1.alloc_table.getLast? = some rec ∧ rec.reserved % 4096 = 0 :=
  c2_malloc_reserved_aligned m0 0x1000 0x60030 m1 rfl

/-- The path taken by the non-NULL reallocate when the record must move: the
looked-up record `al` has too little reserved, the placement succeeds, and the
result is exactly the record update, the resort, and the copy of `size` (the
new size) bytes. -/
theorem realloc_core_move (m : pure64_map) (addr size k : Nat) (al : pure64_alloc)
    (hf : find_alloc_entry m.alloc_table addr = some k)
    (hal : m.alloc_table.get? k = some al)
    (hres : al.reserved < size)
    (ha2 : find_suitable_addr m size ≠ 0) :
    pure64_map_realloc_core m addr size =
      (some (find_suitable_addr m size),
        { m with
            alloc_table := sort_alloc_table (m.alloc_table.set k
              ⟨find_suitable_addr m size, size, round_boundary size⟩),
            mem := pure64_memcpy m.mem (find_suitable_addr m size) addr size }) := by
  have hD : m.alloc_table.getD k ⟨0, 0, 0⟩ = al := getD_of_get? hal
  simp only [pure64_map_realloc_core, hf, hD]
  rw [if_neg (by omega : ¬ al.reserved ≥ size)]
  rw [if_neg ha2]

/-- The concrete state for the reallocate-move counterexample: one usable
region `[0x60000, 0x160000)`, one record `{0x60000, 0x100, 0x1000}`, memory
byte `j` holding `j`. -/
def c5Map : pure64_map :=
  ⟨[⟨0x60000, 0x100000, true⟩], 0x60000, [⟨0x60000, 0x100, 0x1000⟩], mem0⟩

/-- C5: counterexample.  The move path of `pure64_map_realloc` does not copy
the old `record.size` bytes: the code sets `alloc->size = size` (the new
size) *before* `pure64_memcpy(addr2, addr, alloc->size)`, so it copies the
new size.  Concretely: the record at `0x60000` has old `size = 0x100`;
reallocating it to `0x2000` moves it to `0x61000`, and the destination byte
at offset `0x100` — the first byte beyond the old size, which a copy of
exactly `record.size = 0x100` bytes would leave untouched — is overwritten
with the source byte `mem(0x60100)`. -/
theorem c5_counterexample :
    (pure64_map_realloc_core c5Map 0x60000 0x2000).1 = some 0x61000 ∧
    ((pure64_map_realloc_core c5Map 0x60000 0x2000).2).mem 0x61100 = 0x60100 ∧
    c5Map.mem 0x61100 = 0x61100 ∧
    (0x60100 : Nat) ≠ 0x61100 ∧
    (c5Map.alloc_table.get? 0).map pure64_alloc.size = some 0x100 := by
  refine ⟨by decide, by decide, by decide, by decide, by decide⟩

/-- C5 (amended): when the move path of `pure64_map_realloc` relocates a
block, it copies the *new* `size` bytes (the `alloc->size` field is updated to
the new size before the `pure64_memcpy`); consequently every byte at offset
`i < size` — in particular all of the first old-size bytes, since
`old size ≤ reserved < size` — of the returned address equals the byte
previously stored at the old address, and no byte outside the destination
interval changes. -/
theorem c5_move_copies_new_size (m : pure64_map) (addr size k i : Nat)
    (al : pure64_alloc)
    (hf : find_alloc_entry m.alloc_table addr = some k)
    (hal : m.alloc_table.get? k = some al)
    (hres : al.reserved < size)
    (ha2 : find_suitable_addr m size ≠ 0)
    (hi : i < size) :
    (pure64_map_realloc_core m addr size).1 = some (find_suitable_addr m size) ∧
    ((pure64_map_realloc_core m addr size).2).mem (find_suitable_addr m size + i) =
      m.mem (addr + i) ∧
    ∀ j, j < find_suitable_addr m size ∨ find_suitable_addr m size + size ≤ j →
      ((pure64_map_realloc_core m addr size).2).mem j = m.mem j := by
  rw [realloc_core_move m addr size k al hf hal hres ha2]
  refine ⟨rfl, ?_, ?_⟩
  · exact pure64_memcpy_inside m.mem _ addr size i hi
  · intro j hj
    exact pure64_memcpy_outside m.mem _ addr size j hj

/-- C5 witness: the amended statement at the concrete move
`realloc(0x60000, 0x2000)` on `c5Map`, at offset `i = 0x100`. -/
theorem c5_witness :
    (pure64_map_realloc_core c5Map 0x60000 0x2000).1 =
      some (find_suitable_addr c5Map 0x2000) ∧
    ((pure64_map_realloc_core c5Map 0x60000 0x2000).2).mem
        (find_suitable_addr c5Map 0x2000 + 0x100) =
      c5Map.mem (0x60000 + 0x100) ∧
    ∀ j, j < find_suitable_addr c5Map 0x2000 ∨
        find_suitable_addr c5Map 0x2000 + 0x2000 ≤ j →
      ((pure64_map_realloc_core c5Map 0x60000 0x2000).2).mem j = c5Map.mem j :=
  c5_move_copies_new_size c5Map 0x60000 0x2000 0 0x100 ⟨0x60000, 0x100, 0x1000⟩
    (by decide) (by decide) (by decide) (by decide) (by decide)

/-- The concrete state for the exact-fit counterexample: one usable region
`[0x60000, 0x62000)` and one record `{0x60000, 0x1000, 0x1000}`. -/
def c6Map : pure64_map :=
  ⟨[⟨0x60000, 0x2000, true⟩], 0x60000, [⟨0x60000, 0x1000, 0x1000⟩], mem0⟩

/-- C6: counterexample.  On `c6Map` with request `0x1000`, the scan advances
the candidate past the record to `0x61000`, where `0x61000 + 0x1000` equals
the entry end `0x60000 + 0x2000` exactly; the claim says this exactly-fitting
candidate is accepted and returned, but the code's `>=` test abandons the
entry and `find_suitable_addr` returns NULL (0), not `0x61000`. -/
theorem c6_counterexample :
    find_suitable_addr c6Map 0x1000 = 0 ∧
    (0x61000 + 0x1000 : Nat) = 0x60000 + 0x2000 ∧
    (0 : Nat) ≠ 0x61000 := by
  refine ⟨by decide, by decide, by decide⟩

/-- C6 (amended): after advancing the candidate past an overlapping record,
the firmware entry is abandoned whenever `candidate + size` is greater than
*or equal to* `entry.base + entry.length` (64-bit arithmetic); an
exactly-fitting candidate reached by an advance is rejected, not returned. -/
theorem c6_abandon_on_exact_fit (size a2 s2 addr : Nat) (al : pure64_alloc)
    (rest : List pure64_alloc)
    (hov : (addr + size) % U64 > al.addr)
    (hle : addr ≤ al.addr)
    (hab : ((al.addr + al.reserved) % U64 + size) % U64 ≥ (a2 + s2) % U64) :
    scanAllocs size a2 s2 (al :: rest) addr = none := by
  simp only [scanAllocs]
  rw [if_pos ⟨hov, hle⟩, if_pos hab]

/-- C6 witness: the amended statement at the concrete exact-fit input of the
counterexample. -/
theorem c6_witness :
    scanAllocs 0x1000 0x60000 0x2000 [⟨0x60000, 0x1000, 0x1000⟩] 0x60000 = none :=
  c6_abandon_on_exact_fit 0x1000 0x60000 0x2000 0x60000 ⟨0x60000, 0x1000, 0x1000⟩ []
    (by decide) (by decide) (by decide)

/-- C7: counterexample.  `pure64_map_malloc(map, 0)` is *not* treated as a
one-page request: `0 % BOUNDARY == 0`, so no rounding happens, the appended
record has `reserved = 0` (not `BOUNDARY = 4096`), and the placement is asked
for zero bytes (returning the first usable entry's base, here `0x60000`). -/
theorem c7_counterexample :
    (pure64_map_malloc m0 0).1 = some 0x60000 ∧
    ((pure64_map_malloc m0 0).2).alloc_table.getLast? = some ⟨0x60000, 0, 0⟩ ∧
    (0 : Nat) ≠ BOUNDARY := by
  refine ⟨by decide, by decide, by decide⟩

/-- C7 (amended): a zero-size request keeps `reserved = 0` — since
`0 % BOUNDARY = 0` the rounding step does nothing, and whenever
`pure64_map_malloc(map, 0)` succeeds the appended record is
`{addr, size = 0, reserved = 0}`. -/
theorem c7_zero_size_reserved_zero (m : pure64_map) (a : Nat) (m2 : pure64_map)
    (h : pure64_map_malloc m 0 = (some a, m2)) :
    m2.alloc_table.getLast? = some ⟨a, 0, 0⟩ := by
  have h2 := malloc_success_last m 0 a m2 h
  rwa [show round_boundary 0 = 0 from rfl] at h2

/-- C7 witness: the amended statement at the concrete zero-size malloc on the
scenario state. -/
theorem c7_witness :
    ((pure64_map_malloc m0 0).2).alloc_table.getLast? = some ⟨0x60000, 0, 0⟩ :=
  c7_zero_size_reserved_zero m0 0x60000 (pure64_map_malloc m0 0).2 rfl

/-- C8: confirmed.  When the looked-up record has `reserved ≥ size`,
`pure64_map_realloc` updates only that record's `size` field, returns the
address it was handed, changes no other record (the table is only `set` at
the found index, so its length — `alloc_count` — is unchanged and no record is
appended), and leaves memory untouched. -/
theorem c8_fit_in_slack (m : pure64_map) (p s k : Nat) (al : pure64_alloc)
    (hp : p ≠ 0)
    (hf : find_alloc_entry m.alloc_table p = some k)
    (hal : m.alloc_table.get? k = some al)
    (hres : s ≤ al.reserved) :
    pure64_map_realloc m p s =
      (some p, { m with alloc_table := m.alloc_table.set k { al with size := s } }) ∧
    ((pure64_map_realloc m p s).2).alloc_table.length = m.alloc_table.length ∧
    ((pure64_map_realloc m p s).2).mem = m.mem := by
  have hD : m.alloc_table.getD k ⟨0, 0, 0⟩ = al := getD_of_get? hal
  have hmain : pure64_map_realloc m p s =
      (some p, { m with alloc_table := m.alloc_table.set k { al with size := s } }) := by
    unfold pure64_map_realloc
    rw [if_neg hp]
    simp only [pure64_map_realloc_core, hf, hD]
    rw [if_pos hres]
  refine ⟨hmain, ?_, ?_⟩
  · rw [hmain]
    simp
  · rw [hmain]

/-- C8 witness: shrinking the self-reference record of the scenario state in
place (reserved 48 ≥ requested 40). -/
theorem c8_witness :
    pure64_map_realloc m0 0x60000 40 =
      (some 0x60000,
        { m0 with alloc_table := m0.alloc_table.set 1 ⟨0x60000, 40, 48⟩ }) ∧
    ((pure64_map_realloc m0 0x60000 40).2).alloc_table.length =
      m0.alloc_table.length ∧
    ((pure64_map_realloc m0 0x60000 40).2).mem = m0.mem :=
  c8_fit_in_slack m0 0x60000 40 1 ⟨0x60000, 48, 48⟩
    (by decide) (by decide) (by decide) (by decide)

/-- C9: confirmed.  Whenever `pure64_map_malloc` or `pure64_map_realloc`
returns NULL — uninitialized table, no suitable placement, unknown pointer,
or failed table growth — the allocation table (`alloc_count` and every
record) and the whole map state are unchanged; and `pure64_map_free` with a
NULL address or an address that is no live record's base returns leaving the
map unchanged (it never fails). -/
theorem c9_failure_atomicity :
    (∀ (m : pure64_map) (s : Nat),
        (pure64_map_malloc m s).1 = none → (pure64_map_malloc m s).2 = m) ∧
    (∀ (m : pure64_map) (p s : Nat),
        (pure64_map_realloc m p s).1 = none → (pure64_map_realloc m p s).2 = m) ∧
    (∀ (m : pure64_map) (p : Nat),
        p = 0 ∨ find_alloc_entry m.alloc_table p = none → pure64_map_free m p = m) :=
  ⟨malloc_none_eq, realloc_none_eq, free_noop⟩

/-- C9 witness: a malloc on an uninitialized map, a reallocate of an unknown
pointer, and a free of an unknown pointer, all leaving the state unchanged. -/
theorem c9_witness :
    (pure64_map_malloc (pure64_map_init [] mem0) 5).2 = pure64_map_init [] mem0 ∧
    (pure64_map_realloc m0 0x12345 7).2 = m0 ∧
    pure64_map_free m0 0x999 = m0 :=
  ⟨c9_failure_atomicity.1 (pure64_map_init [] mem0) 5 rfl,
   c9_failure_atomicity.2.1 m0 0x12345 7 rfl,
   c9_failure_atomicity.2.2 m0 0x999 (Or.inr rfl)⟩

/-- C10: confirmed.  For every requested size greater than `2^64 - 4096` that
is not a multiple of 4096, the rounding `size += BOUNDARY - size % BOUNDARY`
wraps modulo `2^64` to exactly 0, so the reserved amount is strictly smaller
than the request; and concretely `pure64_map_malloc(m0, 2^64 - 1)` still
returns the non-null address `0x60000` with appended record
`{0x60000, 2^64 - 1, 0}` — `size` holds the huge request while `reserved`
is 0. -/
theorem c10_wraparound (s : Nat)
    (h1 : 2 ^ 64 - 4096 < s) (h2 : s < 2 ^ 64) (h3 : s % 4096 ≠ 0) :
    round_boundary s = 0 ∧ round_boundary s < s ∧
    (pure64_map_malloc m0 (2 ^ 64 - 1)).1 = some 0x60000 ∧
    ((pure64_map_malloc m0 (2 ^ 64 - 1)).2).alloc_table.getLast? =
      some ⟨0x60000, 2 ^ 64 - 1, 0⟩ := by
  have hpow : (2 : Nat) ^ 64 = 18446744073709551616 := by norm_num
  have hz : round_boundary s = 0 := by
    have hsum : s + (4096 - s % 4096) = 2 ^ 64 := by
      rw [hpow] at h1 h2 ⊢
      omega
    unfold round_boundary BOUNDARY U64
    rw [if_pos h3, hsum]
    exact Nat.mod_self _
  refine ⟨hz, ?_, by decide, by decide⟩
  rw [hz, hpow] at *
  omega

/-- C10 witness: the wrap-around statement at the concrete size `2^64 - 1`. -/
theorem c10_witness :
    round_boundary (2 ^ 64 - 1) = 0 ∧
    round_boundary (2 ^ 64 - 1) < 2 ^ 64 - 1 ∧
    (pure64_map_malloc m0 (2 ^ 64 - 1)).1 = some 0x60000 ∧
    ((pure64_map_malloc m0 (2 ^ 64 - 1)).2).alloc_table.getLast? =
      some ⟨0x60000, 2 ^ 64 - 1, 0⟩ :=
  c10_wraparound (2 ^ 64 - 1) (by decide) (by decide) (by decide)
